import Mathlib

/-!
Verification of the table-reconciliation core of the PDF-to-Excel converter
(`pdftoexcel.py`): header normalization, column deduplication, table
alignment, row sanitization, the grouping engine, and the control flow of
`convert_pdf_to_excel`, shallowly embedded as executable Lean definitions.

A cell extracted from a PDF table is either absent (`Option.none`, Python
`None`) or a string.
-/

abbrev Cell := Option String

/-- Python whitespace test for the characters `str.strip` removes
(space, tab, newline, carriage return, vertical tab, form feed). -/
def pyIsSpace (c : Char) : Bool :=
  c.toNat = 32 || c.toNat = 9 || c.toNat = 10 || c.toNat = 13 ||
    c.toNat = 11 || c.toNat = 12

/-- Python `s.lstrip()` on the character list of a string. -/
def lstripCh (cs : List Char) : List Char := cs.dropWhile pyIsSpace

/-- Python `s.rstrip()` on the character list of a string. -/
def rstripCh (cs : List Char) : List Char :=
  (cs.reverse.dropWhile pyIsSpace).reverse

/-- Python `s.strip()` (both ends) on the character list of a string. -/
def pyStrip (cs : List Char) : List Char := rstripCh (lstripCh cs)

/-- Python `s.replace("\n", " ")` acting on one character. -/
def pyReplaceNl (c : Char) : Char := if c = '\n' then ' ' else c

/-- The per-cell transform of `normalize_header` (pdftoexcel.py line 28):
`col.strip().lower().replace("\n", " ") if col else ''`.  A `None` cell and
the empty string are falsy, so they map to `''`. -/
def normCell (c : Cell) : String :=
  match c with
  | none => ""
  | some s =>
      if s = "" then ""
      else String.mk (((pyStrip s.data).map Char.toLower).map pyReplaceNl)

/-- `normalize_header` (pdftoexcel.py lines 16-28): strip, lowercase and
newline-flatten every header cell, sending falsy cells to `''`. -/
def normalize_header (header : List Cell) : List String :=
  header.map normCell

/-- The recursion underlying `ensure_unique_columns`: `seen` is the dict
mapping a base name to its counter (`seen[col]` in the source). -/
def eucGo (seen : String → Option Nat) : List String → List String
  | [] => []
  | col :: rest =>
      match seen col with
      | some n =>
          (col ++ "_" ++ toString (n + 1)) ::
            eucGo (fun c => if c = col then some (n + 1) else seen c) rest
      | none =>
          col :: eucGo (fun c => if c = col then some 0 else seen c) rest

/-- `ensure_unique_columns` (pdftoexcel.py lines 31-48): left-to-right pass
keeping the first occurrence of each exact base name and renaming the n-th
later occurrence to `<name>_<n>`.  The renamed entries are never entered
into `seen`, exactly as in the source (where only `seen[col]` for the
original `col` is touched). -/
def ensure_unique_columns (columns : List String) : List String :=
  eucGo (fun _ => none) columns

example : normalize_header [some "  ID\nCode ", none, some "", some "Age"] =
    ["id code", "", "", "age"] := by decide

example : ensure_unique_columns ["a", "a", "b", "a"] = ["a", "a_1", "b", "a_2"] := by
  decide

example : ensure_unique_columns ["a", "a", "a_1"] = ["a", "a_1", "a_1"] := by
  decide

/-- A pandas DataFrame as the grouping engine uses it: ordered column
labels and rows of cells, each row aligned positionally with `columns`. -/
structure DF where
  columns : List String
  rows : List (List Cell)
deriving DecidableEq, Repr

instance {ε α : Type} [DecidableEq ε] [DecidableEq α] : DecidableEq (Except ε α) := fun
  | .error a, .error b =>
      if h : a = b then .isTrue (by rw [h])
      else .isFalse (by intro he; cases he; exact h rfl)
  | .error _, .ok _ => .isFalse (by intro h; cases h)
  | .ok _, .error _ => .isFalse (by intro h; cases h)
  | .ok a, .ok b =>
      if h : a = b then .isTrue (by rw [h])
      else .isFalse (by intro he; cases he; exact h rfl)

/-- The column-relabelling expression shared by pdftoexcel.py lines 62 and
95: `ensure_unique_columns(normalize_header(list(df.columns)))`.  Column
labels are strings; `normalize_header` treats a present string exactly as
`some` of it (the empty string is falsy either way). -/
def normalizedUniqueColumns (cols : List String) : List String :=
  ensure_unique_columns (normalize_header (cols.map some))

/-- `process_dataframe` (pdftoexcel.py lines 85-96): renormalize and
deduplicate the column labels, keeping the rows. -/
def process_dataframe (df : DF) : DF :=
  { df with columns := normalizedUniqueColumns df.columns }

/-- `clean_and_align_dataframe` (pdftoexcel.py lines 51-67).  After the
relabelling of line 62, the loop of lines 63-65 appends each reference
column missing from the current labels as a new rightmost column whose
value is `''` in every row (membership is checked against the current,
possibly duplicated, labels).  Line 66 (`df = df[combined_df.columns]`)
is pandas label-list selection: each requested label contributes EVERY
current column carrying that label, in positional order — so when the
relabelled candidate holds a duplicated label, the result is wider than
the request.  Cells are taken by pairing each current label with the
row's cell at the same position. -/
def clean_and_align_dataframe (df combined : DF) : DF :=
  let cols := normalizedUniqueColumns df.columns
  let p := combined.columns.foldl
    (fun (acc : List String × List (List Cell)) c =>
      if acc.1.contains c then acc
      else (acc.1 ++ [c], acc.2.map (fun r => r ++ [some ""])))
    (cols, df.rows)
  { columns := combined.columns.flatMap (fun c => p.1.filter (fun k => k = c)),
    rows := p.2.map (fun r => combined.columns.flatMap (fun c =>
      (p.1.zip r).filterMap (fun kv => if kv.1 = c then some kv.2 else none))) }

/-- `pd.concat([a, b], ignore_index=True)` as invoked at pdftoexcel.py
line 151, where `b` is the candidate just aligned to the accumulated
frame `a`.  When both frames carry identical column labels pandas stacks
the rows without realigning.  At this call site `b`'s labels are `a`'s
labels with each one expanded to its matches among the candidate's
labels (every one present after the filling loop), so unequal labels
mean some label was duplicated and the indexes are non-unique: pandas
then raises `InvalidIndexError` while trying to realign, and the
exception — raised outside any `try` — aborts the conversion. -/
def pd_concat (a b : DF) : Except String DF :=
  if a.columns = b.columns then
    Except.ok { columns := a.columns, rows := a.rows ++ b.rows }
  else
    Except.error "Reindexing only valid with uniquely valued Index objects"

/-- A cell Python's `dropna` treats as missing (`None`). -/
def cellIsNa (c : Cell) : Bool := c.isNone

/-- `remove_blank_rows` (pdftoexcel.py lines 70-82): first
`df.dropna(how='all')` drops rows whose cells are all missing, then
`df[df.iloc[:, 0].notna() & (df.iloc[:, 0] != '')]` keeps rows whose first
cell is present and not the empty string. -/
def remove_blank_rows (df : DF) : DF :=
  let dropped := df.rows.filter (fun r => !(r.all cellIsNa))
  { columns := df.columns,
    rows := dropped.filter (fun r =>
      match r.getD 0 none with
      | some s => s != ""
      | none => false) }

/-- One page table as pdfplumber returns it: rows of optional cell text,
the first row being the candidate header. -/
abbrev RawTable := List (List Cell)

/-- First match in the insertion-ordered dict `tables_by_header`. -/
def dictFind? (d : List (List String × DF)) (k : List String) : Option DF :=
  match d with
  | [] => none
  | (k', v) :: rest => if k' = k then some v else dictFind? rest k

/-- Python dict assignment `tables_by_header[header_tuple] = v`: replace
the value at an existing key in place, else append the new binding. -/
def dictSet (d : List (List String × DF)) (k : List String) (v : DF) :
    List (List String × DF) :=
  match d with
  | [] => [(k, v)]
  | (k', v') :: rest =>
      if k' = k then (k', v) :: rest else (k', v') :: dictSet rest k v

/-- The per-table body of the extraction loop (pdftoexcel.py lines
132-158).  A table is considered only when it is truthy, has more than one
row and a truthy (non-empty) first row; its normalized header must have
some truthy entry (`if any(header)`); the data rows `table[1:]` become a
frame whose columns are processed by `process_dataframe`; and the frame is
merged into the dict keyed by the normalized header tuple, aligning and
concatenating when the key is already present.  The `pd.concat` of line
151 can raise; that exception is not caught anywhere in the loop and
aborts the whole conversion. -/
def stepTable (acc : List (List String × DF)) (table : RawTable) :
    Except String (List (List String × DF)) :=
  if 1 < table.length && !(table.headD []).isEmpty then
    let header := normalize_header (table.headD [])
    if header.any (fun s => s != "") then
      let df := process_dataframe { columns := header, rows := table.drop 1 }
      match dictFind? acc header with
      | some old =>
          match pd_concat old (clean_and_align_dataframe df old) with
          | Except.ok merged => Except.ok (dictSet acc header merged)
          | Except.error e => Except.error e
      | none => Except.ok (dictSet acc header df)
    else Except.ok acc
  else Except.ok acc

/-- The whole extraction loop of `convert_pdf_to_excel` (pdftoexcel.py
lines 129-158) over the tables of all pages in page order, starting from
the empty dict of line 126; a raise inside a step aborts the loop. -/
def process_tables (tables : List RawTable) :
    Except String (List (List String × DF)) :=
  tables.foldlM stepTable []

example :
    process_tables
      [[[some "ID", some "Value"], [some "1", some "2"]],
       [[some "ID", some "Value"], [some "3", some "4"]]] =
    Except.ok [(["id", "value"],
      { columns := ["id", "value"],
        rows := [[some "1", some "2"], [some "3", some "4"]] })] := by decide

example :
    (process_tables
      [[[some "Name", some "Age"], [some "x", some "1"]],
       [[some "name", some "age"], [some "y", some "2"]],
       [[some "Name", some "Age", some "City"], [some "z", some "3", some "c"]]]).map
      (fun gs => gs.map (fun g => (g.1, g.2.rows.length))) =
    Except.ok [(["name", "age"], 2), (["name", "age", "city"], 1)] := by decide

/-- Python `path.endswith(suffix)` on the underlying character lists. -/
def py_endswith (s suf : String) : Bool := suf.data.isSuffixOf s.data

/-- `os.path.dirname` (POSIX): everything before the final path
separator; the head is stripped of trailing separators unless it consists
only of separators; a path with no separator has dirname `''`. -/
def os_path_dirname (s : String) : String :=
  let rev := s.data.reverse
  let base := rev.takeWhile (fun c => c ≠ '/')
  let head := (rev.drop base.length).reverse
  if head.isEmpty || head.all (fun c => c = '/') then String.mk head
  else String.mk ((head.reverse.dropWhile (fun c => c = '/')).reverse)

/-- `os.access(path, os.W_OK)`: the environment's answer for a real
directory path, and `False` for the empty path, which names no existing
file (POSIX `access("")` fails with `ENOENT` whatever the current
directory's permissions). -/
def os_access (path : String) (writable : String → Bool) : Bool :=
  if path = "" then false else writable path

/-- The exceptions `convert_pdf_to_excel` can let escape: the two
`ValueError`s of lines 110-113, the `PermissionError` of line 120, a
read failure raised by `PdfReader`/`pdfplumber.open` (lines 123/129),
and a pandas exception escaping the extraction loop (the `pd.concat` of
line 151 sits outside every `try`). -/
inductive PyExn where
  | valueError : String → PyExn
  | permissionError : String → PyExn
  | pdfReadError : String → PyExn
  | pandasError : String → PyExn
deriving DecidableEq, Repr

/-- The terminal message boxes of lines 196, 199 and 201. -/
inductive Dialog where
  | success : String → Dialog
  | errorBox : String → Dialog
  | noTables : Dialog
deriving DecidableEq, Repr

/-- Observable outcome of one `convert_pdf_to_excel` call: the value it
produces for the caller (an uncaught exception, or normal completion
ending in one of the dialogs), whether the source PDF was ever opened,
and whether the spreadsheet was successfully written. -/
structure ConvResult where
  result : Except PyExn Dialog
  pdfOpened : Bool
  fileWritten : Bool
deriving DecidableEq, Repr

/-- The external world of one conversion run: the two paths, the answer
`os.access` gives for writable directories, whether the PDF opens, the
tables pdfplumber extracts per page, and the error (if any) that the
serialization work inside the `try` of lines 162-196 raises. -/
structure PdfEnv where
  pdf_path : String
  excel_path : String
  writable : String → Bool
  pdf_ok : Bool
  pages : List (List RawTable)
  excel_error : Option String

/-- `convert_pdf_to_excel` (pdftoexcel.py lines 99-201): extension and
writability preconditions raise before the PDF is touched; a PDF read
failure propagates; the grouping loop builds `tables_by_header`, and an
exception it raises (the uncaught `pd.concat` of line 151) propagates to
the caller; when the dict is empty the run ends normally with the "No
Tables Found" box; otherwise the export `try` either succeeds or its
exception is caught at line 197 and reported through an error box, after
which the call returns normally. -/
def convert_pdf_to_excel (env : PdfEnv) : ConvResult :=
  if !py_endswith env.pdf_path ".pdf" then
    { result := .error (.valueError "The provided file is not a PDF."),
      pdfOpened := false, fileWritten := false }
  else if !py_endswith env.excel_path ".xlsx" then
    { result := .error (.valueError "The output file must have an .xlsx extension."),
      pdfOpened := false, fileWritten := false }
  else if !os_access (os_path_dirname env.excel_path) env.writable then
    { result := .error (.permissionError
        ("Cannot write to directory: " ++ os_path_dirname env.excel_path)),
      pdfOpened := false, fileWritten := false }
  else if !env.pdf_ok then
    { result := .error (.pdfReadError env.pdf_path),
      pdfOpened := true, fileWritten := false }
  else
    match process_tables env.pages.flatten with
    | Except.error e =>
        { result := .error (.pandasError e), pdfOpened := true, fileWritten := false }
    | Except.ok groups =>
        if groups.isEmpty then
          { result := .ok .noTables, pdfOpened := true, fileWritten := false }
        else
          match env.excel_error with
          | none =>
              { result := .ok (.success env.excel_path),
                pdfOpened := true, fileWritten := true }
          | some e =>
              { result := .ok (.errorBox ("Failed to save Excel file: " ++ e)),
                pdfOpened := true, fileWritten := false }

example : os_path_dirname "out.xlsx" = "" := by decide
example : os_path_dirname "a/b/out.xlsx" = "a/b" := by decide
example : os_path_dirname "/out.xlsx" = "/" := by decide
example : py_endswith "doc.pdf" ".pdf" = true := by decide
example : py_endswith "doc.txt" ".pdf" = false := by decide

theorem char_toNat_ofNat_of_lt (n : Nat) (h : n < 55296) :
    (Char.ofNat n).toNat = n := by
  have hv : n.isValidChar := Or.inl h
  rw [Char.ofNat, dif_pos hv]
  simp [Char.ofNatAux, Char.toNat, UInt32.toNat, BitVec.toNat_ofNatLt]

theorem char_toLower_eq_self (c : Char) (h : ¬(65 ≤ c.toNat ∧ c.toNat ≤ 90)) :
    c.toLower = c := by
  unfold Char.toLower
  exact if_neg h

theorem char_toLower_toNat (c : Char) :
    c.toLower.toNat = if 65 ≤ c.toNat ∧ c.toNat ≤ 90 then c.toNat + 32 else c.toNat := by
  by_cases h : 65 ≤ c.toNat ∧ c.toNat ≤ 90
  · rw [if_pos h]
    have hl : c.toLower = Char.ofNat (c.toNat + 32) := by
      unfold Char.toLower
      exact if_pos h
    rw [hl]
    exact char_toNat_ofNat_of_lt _ (by omega)
  · rw [if_neg h, char_toLower_eq_self c h]

theorem char_toLower_idem (c : Char) : c.toLower.toLower = c.toLower := by
  by_cases h : 65 ≤ c.toNat ∧ c.toNat ≤ 90
  · refine char_toLower_eq_self _ ?_
    rw [char_toLower_toNat, if_pos h]
    omega
  · rw [char_toLower_eq_self c h, char_toLower_eq_self c h]

theorem pyIsSpace_toLower (c : Char) : pyIsSpace c.toLower = pyIsSpace c := by
  by_cases h : 65 ≤ c.toNat ∧ c.toNat ≤ 90
  · have h1 : pyIsSpace c.toLower = false := by
      simp only [pyIsSpace, char_toLower_toNat, if_pos h]
      simp only [Bool.or_eq_false_iff, decide_eq_false_iff_not]
      omega
    have h2 : pyIsSpace c = false := by
      simp only [pyIsSpace, Bool.or_eq_false_iff, decide_eq_false_iff_not]
      omega
    rw [h1, h2]
  · rw [char_toLower_eq_self c h]

theorem pyIsSpace_pyReplaceNl (c : Char) : pyIsSpace (pyReplaceNl c) = pyIsSpace c := by
  unfold pyReplaceNl
  split
  · next h => rw [h]; decide
  · rfl

/-- The per-character transform of the header normalizer: lowercase, then
newline-to-space. -/
def normChar (c : Char) : Char := pyReplaceNl c.toLower

theorem pyIsSpace_normChar (c : Char) : pyIsSpace (normChar c) = pyIsSpace c := by
  rw [normChar, pyIsSpace_pyReplaceNl, pyIsSpace_toLower]

theorem normChar_idem (c : Char) : normChar (normChar c) = normChar c := by
  unfold normChar
  by_cases h : c.toLower = '\n'
  · rw [h]; decide
  · have h1 : pyReplaceNl c.toLower = c.toLower := by
      rw [pyReplaceNl, if_neg h]
    rw [h1, char_toLower_idem, h1]

theorem dropWhile_idem {α : Type} (p : α → Bool) (l : List α) :
    (l.dropWhile p).dropWhile p = l.dropWhile p := by
  induction l with
  | nil => rfl
  | cons a t ih =>
      by_cases h : p a = true
      · simp [List.dropWhile_cons, h, ih]
      · simp [List.dropWhile_cons, h]

theorem dropWhile_head_false {α : Type} (p : α → Bool) (l : List α) (a : α) (t : List α)
    (h : l.dropWhile p = a :: t) : p a = false := by
  induction l with
  | nil => simp at h
  | cons b u ih =>
      by_cases hb : p b = true
      · rw [List.dropWhile_cons, if_pos hb] at h
        exact ih h
      · rw [List.dropWhile_cons, if_neg hb] at h
        cases h
        simpa using hb

theorem dropWhile_append_single {α : Type} (p : α → Bool) (a : α) (h : p a = false)
    (l : List α) : (l ++ [a]).dropWhile p = l.dropWhile p ++ [a] := by
  induction l with
  | nil => simp [List.dropWhile_cons, h]
  | cons b u ih =>
      by_cases hb : p b = true
      · simp only [List.cons_append, List.dropWhile_cons, if_pos hb]
        exact ih
      · simp [List.dropWhile_cons, hb]

theorem rstripCh_cons_keep (a : Char) (t : List Char) (h : pyIsSpace a = false) :
    rstripCh (a :: t) = a :: rstripCh t := by
  unfold rstripCh
  rw [List.reverse_cons, dropWhile_append_single pyIsSpace a h, List.reverse_append]
  rfl

theorem rstripCh_idem (l : List Char) : rstripCh (rstripCh l) = rstripCh l := by
  unfold rstripCh
  rw [List.reverse_reverse, dropWhile_idem]

theorem lstripCh_rstripCh_lstripCh (cs : List Char) :
    lstripCh (rstripCh (lstripCh cs)) = rstripCh (lstripCh cs) := by
  rcases hx : lstripCh cs with _ | ⟨a, t⟩
  · rfl
  · have ha : pyIsSpace a = false := dropWhile_head_false pyIsSpace cs a t hx
    rw [rstripCh_cons_keep a t ha, lstripCh, List.dropWhile_cons, if_neg (by simp [ha])]

theorem pyStrip_idem (cs : List Char) : pyStrip (pyStrip cs) = pyStrip cs := by
  unfold pyStrip
  rw [lstripCh_rstripCh_lstripCh, rstripCh_idem]

theorem comp_pyIsSpace_normChar : pyIsSpace ∘ normChar = pyIsSpace :=
  funext (fun a => pyIsSpace_normChar a)

theorem lstripCh_map_normChar (l : List Char) :
    lstripCh (l.map normChar) = (lstripCh l).map normChar := by
  unfold lstripCh
  rw [List.dropWhile_map, comp_pyIsSpace_normChar]

theorem rstripCh_map_normChar (l : List Char) :
    rstripCh (l.map normChar) = (rstripCh l).map normChar := by
  unfold rstripCh
  rw [← List.map_reverse, List.dropWhile_map, comp_pyIsSpace_normChar, List.map_reverse]

theorem pyStrip_map_normChar (l : List Char) :
    pyStrip (l.map normChar) = (pyStrip l).map normChar := by
  unfold pyStrip
  rw [lstripCh_map_normChar, rstripCh_map_normChar]

theorem map_normChar_eq (l : List Char) :
    (l.map Char.toLower).map pyReplaceNl = l.map normChar := by
  rw [List.map_map]
  rfl

theorem normTransform_idem (cs : List Char) :
    (((pyStrip (((pyStrip cs).map Char.toLower).map pyReplaceNl)).map Char.toLower).map
        pyReplaceNl) =
    ((pyStrip cs).map Char.toLower).map pyReplaceNl := by
  rw [map_normChar_eq, map_normChar_eq, pyStrip_map_normChar, pyStrip_idem,
    List.map_map]
  congr 1
  funext a
  exact normChar_idem a

theorem normCell_some (s : String) :
    normCell (some s) =
      if s = "" then ""
      else String.mk (((pyStrip s.data).map Char.toLower).map pyReplaceNl) := rfl

theorem normCell_idem (c : Cell) : normCell (some (normCell c)) = normCell c := by
  rcases c with _ | s
  · rfl
  · by_cases hs : s = ""
    · subst hs; rfl
    · have hinner : normCell (some s) =
          String.mk (((pyStrip s.data).map Char.toLower).map pyReplaceNl) := by
        rw [normCell_some, if_neg hs]
      rw [hinner]
      by_cases ht : String.mk (((pyStrip s.data).map Char.toLower).map pyReplaceNl) = ""
      · rw [ht]
        rfl
      · rw [normCell_some, if_neg ht]
        show String.mk
            (((pyStrip (((pyStrip s.data).map Char.toLower).map pyReplaceNl)).map
              Char.toLower).map pyReplaceNl) = _
        rw [normTransform_idem]

/-- C9.  Header normalization is idempotent: renormalizing the (string)
output of `normalize_header` — fed back in as present cells, as Python
would — changes nothing. -/
theorem normalize_header_idem (h : List Cell) :
    normalize_header ((normalize_header h).map some) = normalize_header h := by
  unfold normalize_header
  rw [List.map_map, List.map_map]
  apply List.map_congr_left
  intro c _
  exact normCell_idem c

theorem eucGo_length (seen : String → Option Nat) (l : List String) :
    (eucGo seen l).length = l.length := by
  induction l generalizing seen with
  | nil => rfl
  | cons col rest ih =>
      rcases h : seen col with _ | n <;> simp [eucGo, h, ih]

theorem eucGo_getD (rest : List String) : ∀ (p : List String) (seen : String → Option Nat),
    (∀ c, seen c = if p.count c = 0 then none else some (p.count c - 1)) →
    ∀ i, i < rest.length →
    (eucGo seen rest).getD i "" =
      (if p.count (rest.getD i "") + (rest.take i).count (rest.getD i "") = 0
       then rest.getD i ""
       else rest.getD i "" ++ "_" ++
         toString (p.count (rest.getD i "") + (rest.take i).count (rest.getD i ""))) := by
  induction rest with
  | nil =>
      intro p seen hrel i hi
      simp at hi
  | cons col rest ih =>
      intro p seen hrel i hi
      have hnextrel : ∀ (next : String → Option Nat),
          (∀ c, next c = if c = col then some (p.count col) else seen c) →
          (∀ c, next c = if (p ++ [col]).count c = 0 then none
            else some ((p ++ [col]).count c - 1)) := by
        intro next hnext c
        rw [hnext c]
        by_cases hcc : c = col
        · subst hcc
          have hcnt : (p ++ [c]).count c = p.count c + 1 := by
            rw [List.count_append]
            simp
          rw [if_pos rfl, hcnt, if_neg (by omega)]
          exact congrArg some (by omega)
        · have hcnt : (p ++ [col]).count c = p.count c := by
            rw [List.count_append]
            have : List.count c [col] = 0 := by
              simp [List.count_singleton]
              exact fun h => hcc h.symm
            omega
          rw [if_neg hcc, hcnt, hrel c]
      rcases hseen : seen col with _ | n
      · have hc : p.count col = 0 := by
          have h0 := hrel col
          rw [hseen] at h0
          by_contra hne
          rw [if_neg hne] at h0
          cases h0
        cases i with
        | zero =>
            simp [eucGo, hseen, hc]
        | succ j =>
            have hj : j < rest.length := by simpa using hi
            have hrec := ih (p ++ [col])
              (fun c => if c = col then some 0 else seen c)
              (hnextrel _ (by intro c; rw [hc])) j hj
            have hcnt2 : ∀ name, (p ++ [col]).count name + (rest.take j).count name =
                p.count name + ((col :: rest).take (j + 1)).count name := by
              intro name
              rw [List.count_append, List.take_succ_cons]
              have h0 : List.count name ([] : List String) = 0 := List.count_nil name
              have h1 := List.count_cons name col ([] : List String)
              have h2 := List.count_cons name col (rest.take j)
              omega
            rw [show (eucGo seen (col :: rest)).getD (j + 1) "" =
                  (eucGo (fun c => if c = col then some 0 else seen c) rest).getD j "" by
                simp [eucGo, hseen]]
            rw [hrec]
            rw [show (col :: rest).getD (j + 1) "" = rest.getD j "" by simp]
            rw [hcnt2 (rest.getD j "")]
      · have hc : p.count col = n + 1 := by
          have h0 := hrel col
          rw [hseen] at h0
          by_cases hz : p.count col = 0
          · rw [if_pos hz] at h0; cases h0
          · rw [if_neg hz] at h0
            injection h0 with h0'
            omega
        cases i with
        | zero =>
            simp only [eucGo, hseen]
            simp [hc]
        | succ j =>
            have hj : j < rest.length := by simpa using hi
            have hrec := ih (p ++ [col])
              (fun c => if c = col then some (n + 1) else seen c)
              (hnextrel _ (by intro c; rw [hc])) j hj
            have hcnt2 : ∀ name, (p ++ [col]).count name + (rest.take j).count name =
                p.count name + ((col :: rest).take (j + 1)).count name := by
              intro name
              rw [List.count_append, List.take_succ_cons]
              have h0 : List.count name ([] : List String) = 0 := List.count_nil name
              have h1 := List.count_cons name col ([] : List String)
              have h2 := List.count_cons name col (rest.take j)
              omega
            rw [show (eucGo seen (col :: rest)).getD (j + 1) "" =
                  (eucGo (fun c => if c = col then some (n + 1) else seen c) rest).getD j "" by
                simp [eucGo, hseen]]
            rw [hrec]
            rw [show (col :: rest).getD (j + 1) "" = rest.getD j "" by simp]
            rw [hcnt2 (rest.getD j "")]

/-- C6.  The Column Deduplicator is a deterministic left-to-right pass:
the output has the input's length; position `i` keeps the input name
unchanged when no earlier position holds the same exact name, and
otherwise carries the suffix `_<n>` where `n` is the 1-based count of
earlier occurrences of that exact name; and on `["a","a","b","a"]` it
yields `["a","a_1","b","a_2"]`. -/
theorem ensure_unique_columns_spec (cols : List String) (i : Nat) (hi : i < cols.length) :
    (ensure_unique_columns cols).length = cols.length ∧
    ((ensure_unique_columns cols).getD i "" =
      if (cols.take i).count (cols.getD i "") = 0 then cols.getD i ""
      else cols.getD i "" ++ "_" ++ toString ((cols.take i).count (cols.getD i ""))) ∧
    ensure_unique_columns ["a", "a", "b", "a"] = ["a", "a_1", "b", "a_2"] := by
  refine ⟨eucGo_length _ _, ?_, by decide⟩
  have h := eucGo_getD cols [] (fun _ => none)
    (by
      intro c
      rw [List.count_nil, if_pos rfl]) i hi
  rw [ensure_unique_columns, h, List.count_nil, Nat.zero_add]

theorem ensure_unique_columns_spec_witness :
    1 < (["a", "a", "b", "a"] : List String).length ∧
    ((ensure_unique_columns ["a", "a", "b", "a"]).length =
        (["a", "a", "b", "a"] : List String).length ∧
      ((ensure_unique_columns ["a", "a", "b", "a"]).getD 1 "" =
        if ((["a", "a", "b", "a"] : List String).take 1).count
            ((["a", "a", "b", "a"] : List String).getD 1 "") = 0 then
          (["a", "a", "b", "a"] : List String).getD 1 ""
        else (["a", "a", "b", "a"] : List String).getD 1 "" ++ "_" ++
          toString (((["a", "a", "b", "a"] : List String).take 1).count
            ((["a", "a", "b", "a"] : List String).getD 1 ""))) ∧
      ensure_unique_columns ["a", "a", "b", "a"] = ["a", "a_1", "b", "a_2"]) :=
  ⟨by decide, ensure_unique_columns_spec ["a", "a", "b", "a"] 1 (by decide)⟩

/-- C1.  The Column Deduplicator does NOT always produce pairwise-distinct
names, contradicting its own docstring ("Ensure all column names are
unique"): renamed entries are never recorded in `seen`, so on
`["a","a","a_1"]` the second `"a"` is renamed to `"a_1"` which collides
with the untouched third entry, and the output `["a","a_1","a_1"]` has a
duplicate. -/
theorem ensure_unique_columns_duplicate_bug :
    ensure_unique_columns ["a", "a", "a_1"] = ["a", "a_1", "a_1"] ∧
    ¬ (ensure_unique_columns ["a", "a", "a_1"]).Nodup ∧
    (ensure_unique_columns ["a", "a", "a_1"]).length = 3 := by
  refine ⟨by decide, ?_, by decide⟩
  decide

/-- The spec's notion of an "empty/null" cell in the row-sanitization
clause: the cell is missing or holds the empty string. -/
def cellBlank (c : Cell) : Bool := c.isNone || c == some ""

theorem keep_cond_eq (r : List Cell) :
    ((match r.getD 0 none with
      | some s => s != ""
      | none => false) && !(r.all cellIsNa)) =
    !(r.all cellBlank || cellBlank (r.getD 0 none)) := by
  cases r with
  | nil => rfl
  | cons c t =>
      rcases c with _ | s
      · simp [cellBlank, List.getD_cons_zero]
      · by_cases hs : s = ""
        · subst hs
          simp [cellBlank, List.getD_cons_zero]
        · have h1 : (s != "") = true := by
            simpa using hs
          have h2 : cellIsNa (some s) = false := rfl
          have h3 : cellBlank (some s) = false := by
            simp [cellBlank, hs]
          simp [List.getD_cons_zero, h1, h2, h3, List.all_cons]

/-- C5.  `remove_blank_rows` keeps the columns, returns an
order-preserving subset of the rows, and removes a row exactly when all
of its cells are empty/null or its first-column cell is empty/null; in
particular a row whose first cell is populated survives whatever the
other cells hold. -/
theorem remove_blank_rows_spec (df : DF) (hcols : 1 ≤ df.columns.length)
    (hshape : ∀ r ∈ df.rows, r.length = df.columns.length) :
    (remove_blank_rows df).columns = df.columns ∧
    (remove_blank_rows df).rows.Sublist df.rows ∧
    (remove_blank_rows df).rows =
      df.rows.filter (fun r => !(r.all cellBlank || cellBlank (r.getD 0 none))) := by
  refine ⟨rfl, ?_, ?_⟩
  · show ((df.rows.filter _).filter _).Sublist df.rows
    exact ((List.filter_sublist _).trans (List.filter_sublist _))
  · show (df.rows.filter _).filter _ = _
    rw [List.filter_filter]
    exact List.filter_congr (fun r _ => keep_cond_eq r)

theorem remove_blank_rows_spec_witness :
    1 ≤ (DF.mk ["k", "v"]
        [[some "x", none], [none, some "y"], [some "", some "z"], [none, none]]).columns.length ∧
    (∀ r ∈ (DF.mk ["k", "v"]
        [[some "x", none], [none, some "y"], [some "", some "z"], [none, none]]).rows,
      r.length = (DF.mk ["k", "v"]
        [[some "x", none], [none, some "y"], [some "", some "z"], [none, none]]).columns.length) ∧
    ((remove_blank_rows (DF.mk ["k", "v"]
        [[some "x", none], [none, some "y"], [some "", some "z"], [none, none]])).columns =
      (DF.mk ["k", "v"]
        [[some "x", none], [none, some "y"], [some "", some "z"], [none, none]]).columns ∧
     (remove_blank_rows (DF.mk ["k", "v"]
        [[some "x", none], [none, some "y"], [some "", some "z"], [none, none]])).rows.Sublist
      (DF.mk ["k", "v"]
        [[some "x", none], [none, some "y"], [some "", some "z"], [none, none]]).rows ∧
     (remove_blank_rows (DF.mk ["k", "v"]
        [[some "x", none], [none, some "y"], [some "", some "z"], [none, none]])).rows =
      (DF.mk ["k", "v"]
        [[some "x", none], [none, some "y"], [some "", some "z"], [none, none]]).rows.filter
        (fun r => !(r.all cellBlank || cellBlank (r.getD 0 none)))) :=
  ⟨by decide, by decide,
    remove_blank_rows_spec _ (by decide) (by decide)⟩

theorem dictFind?_dictSet_self (d : List (List String × DF)) (k : List String) (v : DF) :
    dictFind? (dictSet d k v) k = some v := by
  induction d with
  | nil => simp [dictSet, dictFind?]
  | cons e rest ih =>
      rcases e with ⟨k', v'⟩
      by_cases h : k' = k
      · simp [dictSet, dictFind?, h]
      · simp [dictSet, dictFind?, h, ih]

theorem dictSet_length_of_found (d : List (List String × DF)) (k : List String)
    (v old : DF) (h : dictFind? d k = some old) :
    (dictSet d k v).length = d.length := by
  induction d with
  | nil => cases h
  | cons e rest ih =>
      rcases e with ⟨k', v'⟩
      by_cases hk : k' = k
      · simp [dictSet, hk]
      · rw [dictFind?, if_neg hk] at h
        simp [dictSet, hk, ih h]

theorem dictSet_of_not_found (d : List (List String × DF)) (k : List String)
    (v : DF) (h : dictFind? d k = none) :
    dictSet d k v = d ++ [(k, v)] := by
  induction d with
  | nil => rfl
  | cons e rest ih =>
      rcases e with ⟨k', v'⟩
      by_cases hk : k' = k
      · rw [dictFind?, if_pos hk] at h
        cases h
      · rw [dictFind?, if_neg hk] at h
        simp [dictSet, hk, ih h]

theorem contains_eq_mem (l : List String) (a : String) :
    l.contains a = decide (a ∈ l) := by
  by_cases h : a ∈ l
  · simp [List.contains, List.elem_iff, h]
  · simp [List.contains, h]

theorem indexOf_append_of_not_mem (l₁ l₂ : List String) (a : String) (h : a ∉ l₁) :
    (l₁ ++ l₂).indexOf a = l₁.length + l₂.indexOf a := by
  induction l₁ with
  | nil => simp
  | cons b t ih =>
      have hb : (b == a) = false := by
        rw [beq_eq_false_iff_ne]
        intro hba
        exact h (by rw [hba]; exact List.mem_cons_self a t)
      have ht : a ∉ t := fun hmem => h (List.mem_cons_of_mem b hmem)
      rw [List.cons_append, List.indexOf_cons, hb]
      simp only [cond_false]
      rw [ih ht, List.length_cons]
      omega

theorem normalize_header_length (h : List Cell) :
    (normalize_header h).length = h.length := by
  rw [normalize_header, List.length_map]

theorem normalizedUniqueColumns_length (cols : List String) :
    (normalizedUniqueColumns cols).length = cols.length := by
  rw [normalizedUniqueColumns, ensure_unique_columns, eucGo_length,
    normalize_header_length, List.length_map]

theorem align_foldl (L : List String) (hL : L.Nodup) :
    ∀ (cols : List String) (rows : List (List Cell)),
    L.foldl
      (fun (acc : List String × List (List Cell)) c =>
        if acc.1.contains c then acc
        else (acc.1 ++ [c], acc.2.map (fun r => r ++ [some ""])))
      (cols, rows) =
    (cols ++ L.filter (fun c => !(cols.contains c)),
     rows.map (fun r =>
       r ++ List.replicate (L.filter (fun c => !(cols.contains c))).length (some ""))) := by
  induction L with
  | nil =>
      intro cols rows
      simp
  | cons c L ih =>
      intro cols rows
      have hc : c ∉ L := (List.nodup_cons.mp hL).1
      have hL' : L.Nodup := (List.nodup_cons.mp hL).2
      by_cases h : cols.contains c = true
      · have hmem : c ∈ cols := by
          have hce := contains_eq_mem cols c
          rw [h] at hce
          exact of_decide_eq_true hce.symm
        have hfilter : (c :: L).filter (fun x => !(cols.contains x)) =
            L.filter (fun x => !(cols.contains x)) := by
          rw [List.filter_cons]
          rw [if_neg (by simp; exact hmem)]
        rw [List.foldl_cons, hfilter]
        show L.foldl _ (if cols.contains c then (cols, rows) else _) = _
        rw [if_pos h]
        exact ih hL' cols rows
      · have hb : cols.contains c = false := Bool.of_not_eq_true h
        have hnmem : c ∉ cols := by
          have hce := contains_eq_mem cols c
          rw [hb] at hce
          exact of_decide_eq_false hce.symm
        have hfilter : (c :: L).filter (fun x => !(cols.contains x)) =
            c :: L.filter (fun x => !(cols.contains x)) := by
          rw [List.filter_cons]
          rw [if_pos (by simp; exact hnmem)]
        have hfilter2 : L.filter (fun x => !((cols ++ [c]).contains x)) =
            L.filter (fun x => !(cols.contains x)) := by
          refine List.filter_congr ?_
          intro x hx
          have hxc : x ≠ c := fun hxx => hc (hxx ▸ hx)
          rw [contains_eq_mem, contains_eq_mem]
          congr 1
          simp [List.mem_append, hxc]
        rw [List.foldl_cons, hfilter]
        show L.foldl _ (if cols.contains c then (cols, rows) else _) = _
        rw [if_neg h]
        rw [ih hL' (cols ++ [c]) (rows.map (fun r => r ++ [some ""])), hfilter2]
        simp only [Prod.mk.injEq]
        constructor
        · rw [List.append_assoc]
          rfl
        · rw [List.map_map]
          refine List.map_congr_left ?_
          intro r _
          show (r ++ [some ""]) ++
              List.replicate (L.filter (fun x => !(cols.contains x))).length (some "") =
            r ++ List.replicate (c :: L.filter (fun x => !(cols.contains x))).length (some "")
          rw [List.append_assoc, List.length_cons, List.replicate_succ]
          rfl

theorem filter_single_of_nodup (l : List String) (a : String) (hn : l.Nodup) (ha : a ∈ l) :
    l.filter (fun k => k = a) = [a] := by
  induction l with
  | nil => cases ha
  | cons b t ih =>
      have hbt := List.nodup_cons.mp hn
      by_cases hb : b = a
      · subst hb
        rw [List.filter_cons, if_pos (by simp)]
        have hnil : t.filter (fun k => k = b) = [] := by
          rw [List.filter_eq_nil_iff]
          intro x hx
          simp only [decide_eq_true_eq]
          intro hxb
          exact hbt.1 (hxb ▸ hx)
        rw [hnil]
      · rw [List.filter_cons, if_neg (by simp [hb])]
        refine ih hbt.2 ?_
        rcases List.mem_cons.mp ha with h1 | h1
        · exact absurd h1.symm hb
        · exact h1

theorem zip_filterMap_single (ks : List String) : ∀ (vs : List Cell) (c : String),
    ks.Nodup → c ∈ ks → vs.length = ks.length →
    (ks.zip vs).filterMap (fun kv => if kv.1 = c then some kv.2 else none) =
      [vs.getD (ks.indexOf c) none] := by
  induction ks with
  | nil =>
      intro vs c _ hc _
      cases hc
  | cons k ks ih =>
      intro vs c hn hc hlen
      rcases vs with _ | ⟨v, vs⟩
      · simp at hlen
      · have hkt := List.nodup_cons.mp hn
        by_cases hk : k = c
        · subst hk
          have hsome : (fun (kv : String × Cell) =>
              if kv.1 = k then some kv.2 else none) (k, v) = some v := by simp
          rw [List.zip_cons_cons,
            @List.filterMap_cons_some (String × Cell) Cell
              (fun kv => if kv.1 = k then some kv.2 else none) (k, v) (ks.zip vs) v hsome]
          have hnil : (ks.zip vs).filterMap
              (fun kv => if kv.1 = k then some kv.2 else none) = [] := by
            rw [List.filterMap_eq_nil_iff]
            intro kv hkv
            rcases kv with ⟨k1, v1⟩
            have hk1 : k1 ∈ ks := (List.of_mem_zip hkv).1
            have hne : ¬ k1 = k := fun he => hkt.1 (he ▸ hk1)
            simp [hne]
          rw [hnil, List.indexOf_cons]
          simp
        · have hnone : (fun (kv : String × Cell) =>
              if kv.1 = c then some kv.2 else none) (k, v) = none := by simp [hk]
          have hc2 : c ∈ ks := by
            rcases List.mem_cons.mp hc with h1 | h1
            · exact absurd h1.symm hk
            · exact h1
          rw [List.zip_cons_cons,
            @List.filterMap_cons_none (String × Cell) Cell
              (fun kv => if kv.1 = c then some kv.2 else none) (k, v) (ks.zip vs) hnone,
            ih vs c hkt.2 hc2 (by simpa using hlen), List.indexOf_cons]
          have hbeq : (k == c) = false := by simp [hk]
          rw [hbeq]
          simp [List.getD_cons_succ]

theorem flatMap_eq_map {β : Type} (L : List String) (f : String → List β) (g : String → β)
    (h : ∀ c ∈ L, f c = [g c]) : L.flatMap f = L.map g := by
  induction L with
  | nil => rfl
  | cons a t ih =>
      rw [List.flatMap_cons, h a (List.mem_cons_self a t), List.map_cons,
        ih (fun c hc => h c (List.mem_cons_of_mem a hc))]
      rfl

theorem capp_nodup (cols L : List String) (hc : cols.Nodup) (hL : L.Nodup) :
    (cols ++ L.filter (fun x => !(cols.contains x))).Nodup := by
  rw [List.nodup_append]
  refine ⟨hc, hL.filter _, ?_⟩
  intro a ha hmem
  have hpred := (List.mem_filter.mp hmem).2
  rw [Bool.not_eq_true', contains_eq_mem] at hpred
  exact of_decide_eq_false hpred ha

theorem mem_capp (cols L : List String) (c : String) (hcL : c ∈ L) :
    c ∈ cols ++ L.filter (fun x => !(cols.contains x)) := by
  by_cases h : c ∈ cols
  · exact List.mem_append_left _ h
  · refine List.mem_append_right _ (List.mem_filter.mpr ⟨hcL, ?_⟩)
    rw [Bool.not_eq_true', contains_eq_mem]
    exact decide_eq_false h

theorem clean_and_align_unfold (df combined : DF) (hnodup : combined.columns.Nodup) :
    clean_and_align_dataframe df combined =
      DF.mk
        (combined.columns.flatMap (fun c =>
          (normalizedUniqueColumns df.columns ++
            combined.columns.filter
              (fun x => !((normalizedUniqueColumns df.columns).contains x))).filter
            (fun k => k = c)))
        ((df.rows.map (fun r0 =>
            r0 ++ List.replicate
              (combined.columns.filter
                (fun x => !((normalizedUniqueColumns df.columns).contains x))).length
              (some ""))).map
          (fun r0 => combined.columns.flatMap (fun c =>
            ((normalizedUniqueColumns df.columns ++
              combined.columns.filter
                (fun x => !((normalizedUniqueColumns df.columns).contains x))).zip
              r0).filterMap
              (fun kv => if kv.1 = c then some kv.2 else none)))) := by
  show DF.mk
      (combined.columns.flatMap (fun c =>
        (combined.columns.foldl
          (fun (acc : List String × List (List Cell)) c =>
            if acc.1.contains c then acc
            else (acc.1 ++ [c], acc.2.map (fun r => r ++ [some ""])))
          (normalizedUniqueColumns df.columns, df.rows)).1.filter (fun k => k = c)))
      ((combined.columns.foldl
          (fun (acc : List String × List (List Cell)) c =>
            if acc.1.contains c then acc
            else (acc.1 ++ [c], acc.2.map (fun r => r ++ [some ""])))
          (normalizedUniqueColumns df.columns, df.rows)).2.map
        (fun r0 => combined.columns.flatMap (fun c =>
          ((combined.columns.foldl
            (fun (acc : List String × List (List Cell)) c =>
              if acc.1.contains c then acc
              else (acc.1 ++ [c], acc.2.map (fun r => r ++ [some ""])))
            (normalizedUniqueColumns df.columns, df.rows)).1.zip r0).filterMap
            (fun kv => if kv.1 = c then some kv.2 else none)))) = _
  rw [align_foldl combined.columns hnodup]

theorem clean_and_align_columns_eq (df combined : DF)
    (hcand : (normalizedUniqueColumns df.columns).Nodup)
    (hnodup : combined.columns.Nodup) :
    (clean_and_align_dataframe df combined).columns = combined.columns := by
  rw [clean_and_align_unfold df combined hnodup]
  show combined.columns.flatMap _ = combined.columns
  rw [flatMap_eq_map combined.columns _ (fun c => c)
    (fun c hc => filter_single_of_nodup _ c (capp_nodup _ _ hcand hnodup)
      (mem_capp _ _ c hc)),
    List.map_id']

theorem clean_and_align_rows_eq (df combined : DF)
    (hcand : (normalizedUniqueColumns df.columns).Nodup)
    (hnodup : combined.columns.Nodup)
    (hshape : ∀ r' ∈ df.rows, r'.length = df.columns.length) :
    (clean_and_align_dataframe df combined).rows =
      df.rows.map (fun r0 =>
        combined.columns.map (fun c =>
          (r0 ++ List.replicate
            (combined.columns.filter
              (fun x => !((normalizedUniqueColumns df.columns).contains x))).length
            (some "")).getD
            ((normalizedUniqueColumns df.columns ++
              combined.columns.filter
                (fun x => !((normalizedUniqueColumns df.columns).contains x))).indexOf c)
            none)) := by
  rw [clean_and_align_unfold df combined hnodup]
  show (df.rows.map _).map _ = _
  rw [List.map_map]
  refine List.map_congr_left ?_
  intro r1 hr1
  refine flatMap_eq_map combined.columns _ _ ?_
  intro c hc
  refine zip_filterMap_single _ _ c (capp_nodup _ _ hcand hnodup)
    (mem_capp _ _ c hc) ?_
  rw [List.length_append, List.length_append, List.length_replicate,
    hshape r1 hr1, normalizedUniqueColumns_length]

/-- C4 (amended).  For a candidate frame whose processed column labels
are pairwise distinct and with positionally well-formed rows, and a
reference (accumulated) frame with deduplicated (pairwise-distinct)
columns, alignment yields exactly the reference's columns in the
reference's order without dropping any row; every reference column
absent from the candidate's processed labels holds the present empty
string — not a missing value — in every row; and concatenating the
aligned frame onto the accumulated one succeeds and keeps the
accumulated column set unchanged, so it never shrinks.  (When the
processed labels hold a duplicate — reachable through the deduplicator
bug — pandas label selection instead widens the result, see the
counterexample.) -/
theorem clean_and_align_spec (df combined : DF) (j : Nat) (r : List Cell)
    (hcand : (normalizedUniqueColumns df.columns).Nodup)
    (hnodup : combined.columns.Nodup)
    (hshape : ∀ r' ∈ df.rows, r'.length = df.columns.length)
    (hj : j < combined.columns.length)
    (habsent : combined.columns.getD j "" ∉ normalizedUniqueColumns df.columns)
    (hr : r ∈ (clean_and_align_dataframe df combined).rows) :
    (clean_and_align_dataframe df combined).columns = combined.columns ∧
    (clean_and_align_dataframe df combined).rows.length = df.rows.length ∧
    r.length = combined.columns.length ∧
    r.getD j none = some "" ∧
    pd_concat combined (clean_and_align_dataframe df combined) =
      Except.ok (DF.mk combined.columns
        (combined.rows ++ (clean_and_align_dataframe df combined).rows)) := by
  have hcols := clean_and_align_columns_eq df combined hcand hnodup
  have hrw := clean_and_align_rows_eq df combined hcand hnodup hshape
  refine ⟨hcols, by rw [hrw]; simp, ?_, ?_, ?_⟩
  · rw [hrw] at hr
    obtain ⟨r1, _, rfl⟩ := List.mem_map.mp hr
    exact List.length_map _ _
  · rw [hrw] at hr
    obtain ⟨r0, hr0, rfl⟩ := List.mem_map.mp hr
    have hget : combined.columns.getD j "" = combined.columns[j] := by
      rw [List.getD_eq_getElem?_getD, List.getElem?_eq_getElem hj]
      rfl
    rw [hget] at habsent
    have hcmem : combined.columns[j] ∈ combined.columns := List.getElem_mem hj
    have happmem : combined.columns[j] ∈
        combined.columns.filter
          (fun x => !((normalizedUniqueColumns df.columns).contains x)) := by
      refine List.mem_filter.mpr ⟨hcmem, ?_⟩
      rw [Bool.not_eq_true', contains_eq_mem]
      exact decide_eq_false habsent
    have hidxlt :
        (combined.columns.filter
          (fun x => !((normalizedUniqueColumns df.columns).contains x))).indexOf
            combined.columns[j] <
        (combined.columns.filter
          (fun x => !((normalizedUniqueColumns df.columns).contains x))).length :=
      List.indexOf_lt_length.mpr happmem
    have hr0len : r0.length = (normalizedUniqueColumns df.columns).length := by
      rw [hshape r0 hr0, normalizedUniqueColumns_length]
    rw [List.getD_eq_getElem?_getD, List.getElem?_map, List.getElem?_eq_getElem hj]
    show ((r0 ++ List.replicate _ (some "")).getD
        ((normalizedUniqueColumns df.columns ++ _).indexOf combined.columns[j]) none) = _
    rw [indexOf_append_of_not_mem _ _ _ habsent]
    rw [List.getD_eq_getElem?_getD,
      List.getElem?_append_right (by omega)]
    rw [show (normalizedUniqueColumns df.columns).length +
        (combined.columns.filter
          (fun x => !((normalizedUniqueColumns df.columns).contains x))).indexOf
            combined.columns[j] - r0.length =
        (combined.columns.filter
          (fun x => !((normalizedUniqueColumns df.columns).contains x))).indexOf
            combined.columns[j] by omega]
    rw [List.getElem?_replicate, if_pos hidxlt]
    rfl
  · rw [pd_concat, if_pos hcols.symm]

/-- C4 (counterexample).  The claim as stated fails on the code: with
candidate columns `["a","A","a_1"]` — which the line-62 relabelling
turns into the colliding labels `["a","a_1","a_1"]` — and the
deduplicated reference `["a","a_1","extra"]`, pandas label selection
returns both `"a_1"` columns, so the aligned frame has four columns, not
exactly the reference's three. -/
theorem clean_and_align_widens_on_duplicate_labels :
    (["a", "a_1", "extra"] : List String).Nodup ∧
    ensure_unique_columns ["a", "a_1", "extra"] = ["a", "a_1", "extra"] ∧
    normalizedUniqueColumns ["a", "A", "a_1"] = ["a", "a_1", "a_1"] ∧
    (clean_and_align_dataframe
      (DF.mk ["a", "A", "a_1"] [[some "1", some "2", some "3"]])
      (DF.mk ["a", "a_1", "extra"] [[some "4", some "5", some "6"]])).columns =
      ["a", "a_1", "a_1", "extra"] ∧
    (clean_and_align_dataframe
      (DF.mk ["a", "A", "a_1"] [[some "1", some "2", some "3"]])
      (DF.mk ["a", "a_1", "extra"] [[some "4", some "5", some "6"]])).columns ≠
      ["a", "a_1", "extra"] :=
  ⟨by decide, by decide, by decide, by decide, by decide⟩

theorem clean_and_align_spec_witness :
    (clean_and_align_dataframe (DF.mk ["B"] [[some "7"]])
      (DF.mk ["b", "extra"] [[some "1", some "2"]])).columns = ["b", "extra"] ∧
    (clean_and_align_dataframe (DF.mk ["B"] [[some "7"]])
      (DF.mk ["b", "extra"] [[some "1", some "2"]])).rows.length = 1 ∧
    ([some "7", some ""] : List Cell).length = 2 ∧
    ([some "7", some ""] : List Cell).getD 1 none = some "" ∧
    pd_concat (DF.mk ["b", "extra"] [[some "1", some "2"]])
      (clean_and_align_dataframe (DF.mk ["B"] [[some "7"]])
        (DF.mk ["b", "extra"] [[some "1", some "2"]])) =
      Except.ok (DF.mk ["b", "extra"] [[some "1", some "2"], [some "7", some ""]]) :=
  clean_and_align_spec (DF.mk ["B"] [[some "7"]])
    (DF.mk ["b", "extra"] [[some "1", some "2"]]) 1 [some "7", some ""]
    (by decide) (by decide) (by decide) (by decide) (by decide) (by decide)

/-- C3 (amended).  Grouping is keyed exactly by the normalized header
signature.  For a table passing the validity checks: when its normalized
header keys nothing yet, a fresh group is always appended; when it
already keys an accumulated frame `old` whose columns are pairwise
distinct, and the candidate's relabelled columns are also pairwise
distinct, the step succeeds, keeps the number of groups and replaces
that group by `old`'s rows followed by the new table's aligned rows.
(When relabelling yields a duplicated label the uncaught `pd.concat` of
line 151 raises instead — see the counterexample.)  Concretely, a 2-page
PDF with identical `["ID","Value"]` one-row tables ends in a single
group holding both data rows in page order, headers differing only in
case share one group, and a header with an extra column forms its own
group. -/
theorem grouping_spec (acc : List (List String × DF)) (t : RawTable) (old : DF)
    (hvalid : (1 < t.length && !(t.headD []).isEmpty) = true)
    (hheader : ((normalize_header (t.headD [])).any (fun s => s != "")) = true)
    (hold : old.columns.Nodup)
    (hcand : (normalizedUniqueColumns
      (normalizedUniqueColumns (normalize_header (t.headD [])))).Nodup) :
    ((dictFind? acc (normalize_header (t.headD [])) = some old →
        ∃ d, stepTable acc t = Except.ok d ∧
          d.length = acc.length ∧
          dictFind? d (normalize_header (t.headD [])) =
            some (DF.mk old.columns
              (old.rows ++ (clean_and_align_dataframe
                (process_dataframe (DF.mk (normalize_header (t.headD [])) (t.drop 1)))
                old).rows))) ∧
      (dictFind? acc (normalize_header (t.headD [])) = none →
        ∃ d, stepTable acc t = Except.ok d ∧
          d.length = acc.length + 1 ∧
          dictFind? d (normalize_header (t.headD [])) =
            some (process_dataframe (DF.mk (normalize_header (t.headD [])) (t.drop 1))))) ∧
    process_tables
        ([[[[some "ID", some "Value"], [some "1", some "2"]]],
          [[[some "ID", some "Value"], [some "3", some "4"]]]] :
          List (List RawTable)).flatten =
      Except.ok [(["id", "value"],
        DF.mk ["id", "value"] [[some "1", some "2"], [some "3", some "4"]])] ∧
    (process_tables
        [[[some "Name", some "Age"], [some "x", some "1"]],
         [[some "name", some "age"], [some "y", some "2"]],
         [[some "Name", some "Age", some "City"], [some "z", some "3", some "c"]]]).map
        (fun gs => gs.map (fun g => (g.1, g.2.rows.length))) =
      Except.ok [(["name", "age"], 2), (["name", "age", "city"], 1)] := by
  refine ⟨⟨?_, ?_⟩, by decide, by decide⟩
  · intro hfound
    have hcolseq : (clean_and_align_dataframe
        (process_dataframe (DF.mk (normalize_header (t.headD [])) (t.drop 1)))
        old).columns = old.columns :=
      clean_and_align_columns_eq _ _ hcand hold
    have hconcat : pd_concat old (clean_and_align_dataframe
        (process_dataframe (DF.mk (normalize_header (t.headD [])) (t.drop 1))) old) =
        Except.ok (DF.mk old.columns
          (old.rows ++ (clean_and_align_dataframe
            (process_dataframe (DF.mk (normalize_header (t.headD [])) (t.drop 1)))
            old).rows)) := by
      rw [pd_concat, if_pos hcolseq.symm]
    have hstep : stepTable acc t =
        Except.ok (dictSet acc (normalize_header (t.headD []))
          (DF.mk old.columns
            (old.rows ++ (clean_and_align_dataframe
              (process_dataframe (DF.mk (normalize_header (t.headD [])) (t.drop 1)))
              old).rows))) := by
      rw [stepTable, if_pos hvalid]
      simp only [hheader, if_pos, hfound, hconcat]
    exact ⟨_, hstep, dictSet_length_of_found _ _ _ _ hfound, dictFind?_dictSet_self _ _ _⟩
  · intro hnone
    have hstep : stepTable acc t =
        Except.ok (dictSet acc (normalize_header (t.headD []))
          (process_dataframe (DF.mk (normalize_header (t.headD [])) (t.drop 1)))) := by
      rw [stepTable, if_pos hvalid]
      simp only [hheader, if_pos, hnone]
    refine ⟨_, hstep, ?_, dictFind?_dictSet_self _ _ _⟩
    rw [dictSet_of_not_found _ _ _ hnone]
    simp

/-- C3 (counterexample).  The claim as stated fails on the code: two
identical tables with header `["a","a_1","a","a_1"]` share the same
normalized header signature, but the accumulated frame's relabelled
columns collide, the label selection of line 66 widens the candidate
to five columns, and the `pd.concat` of line 151 — outside any `try` —
raises, so no merged group with the appended rows exists at all. -/
theorem grouping_duplicate_merge_raises :
    process_tables
      [[[some "a", some "a_1", some "a", some "a_1"],
        [some "1", some "2", some "3", some "4"]],
       [[some "a", some "a_1", some "a", some "a_1"],
        [some "5", some "6", some "7", some "8"]]] =
      Except.error "Reindexing only valid with uniquely valued Index objects" ∧
    (∀ gs, process_tables
      [[[some "a", some "a_1", some "a", some "a_1"],
        [some "1", some "2", some "3", some "4"]],
       [[some "a", some "a_1", some "a", some "a_1"],
        [some "5", some "6", some "7", some "8"]]] ≠ Except.ok gs) := by
  have h : process_tables
      [[[some "a", some "a_1", some "a", some "a_1"],
        [some "1", some "2", some "3", some "4"]],
       [[some "a", some "a_1", some "a", some "a_1"],
        [some "5", some "6", some "7", some "8"]]] =
      Except.error "Reindexing only valid with uniquely valued Index objects" := by
    decide
  refine ⟨h, ?_⟩
  intro gs hgs
  rw [h] at hgs
  cases hgs

theorem grouping_spec_witness :
    ∃ d, stepTable [(["id", "value"], DF.mk ["id", "value"] [[some "1", some "2"]])]
        [[some "ID", some "Value"], [some "3", some "4"]] = Except.ok d ∧
      d.length = 1 ∧
      dictFind? d ["id", "value"] =
        some (DF.mk ["id", "value"] [[some "1", some "2"], [some "3", some "4"]]) :=
  ((grouping_spec [(["id", "value"], DF.mk ["id", "value"] [[some "1", some "2"]])]
      [[some "ID", some "Value"], [some "3", some "4"]]
      (DF.mk ["id", "value"] [[some "1", some "2"]])
      (by decide) (by decide) (by decide) (by decide)).1.1 (by decide))

theorem os_path_dirname_no_slash (s : String)
    (h : s.data.all (fun c => c ≠ '/') = true) :
    os_path_dirname s = "" := by
  have hall : ∀ x ∈ s.data.reverse, (fun c => decide (c ≠ '/')) x = true := by
    intro x hx
    exact List.all_eq_true.mp h x (List.mem_reverse.mp hx)
  have htw := List.takeWhile_eq_self_iff.mpr hall
  simp only [os_path_dirname]
  rw [htw, List.drop_length, List.reverse_nil]
  rfl

/-- C7.  When the input path lacks the `.pdf` extension, the output path
lacks the `.xlsx` extension, or the destination directory fails the
writability probe, `convert_pdf_to_excel` raises before the PDF is
opened: the outcome is an exception, no page is consumed, nothing is
written, and the whole result is independent of whatever tables the
document holds. -/
theorem convert_preconditions_fail_fast (env : PdfEnv)
    (h : py_endswith env.pdf_path ".pdf" = false ∨
         py_endswith env.excel_path ".xlsx" = false ∨
         os_access (os_path_dirname env.excel_path) env.writable = false) :
    (convert_pdf_to_excel env).pdfOpened = false ∧
    (convert_pdf_to_excel env).fileWritten = false ∧
    (∃ e, (convert_pdf_to_excel env).result = Except.error e) ∧
    (∀ pages, convert_pdf_to_excel { env with pages := pages } =
      convert_pdf_to_excel env) := by
  cases hpdf : py_endswith env.pdf_path ".pdf" with
  | false =>
      refine ⟨?_, ?_, ⟨PyExn.valueError "The provided file is not a PDF.", ?_⟩, ?_⟩ <;>
        simp [convert_pdf_to_excel, hpdf]
  | true =>
      cases hxl : py_endswith env.excel_path ".xlsx" with
      | false =>
          refine ⟨?_, ?_,
            ⟨PyExn.valueError "The output file must have an .xlsx extension.", ?_⟩, ?_⟩ <;>
            simp [convert_pdf_to_excel, hpdf, hxl]
      | true =>
          have h3 : os_access (os_path_dirname env.excel_path) env.writable = false := by
            rcases h with h1 | h2 | h3
            · rw [hpdf] at h1; cases h1
            · rw [hxl] at h2; cases h2
            · exact h3
          refine ⟨?_, ?_,
            ⟨PyExn.permissionError
              ("Cannot write to directory: " ++ os_path_dirname env.excel_path), ?_⟩, ?_⟩ <;>
            simp [convert_pdf_to_excel, hpdf, hxl, h3]

theorem convert_preconditions_fail_fast_witness :
    (py_endswith "doc.txt" ".pdf" = false ∨
     py_endswith "/tmp/out.xlsx" ".xlsx" = false ∨
     os_access (os_path_dirname "/tmp/out.xlsx") (fun _ => true) = false) ∧
    ((convert_pdf_to_excel
        (PdfEnv.mk "doc.txt" "/tmp/out.xlsx" (fun _ => true) true [] none)).pdfOpened = false ∧
     (convert_pdf_to_excel
        (PdfEnv.mk "doc.txt" "/tmp/out.xlsx" (fun _ => true) true [] none)).fileWritten = false ∧
     (∃ e, (convert_pdf_to_excel
        (PdfEnv.mk "doc.txt" "/tmp/out.xlsx" (fun _ => true) true [] none)).result =
          Except.error e) ∧
     (∀ pages, convert_pdf_to_excel
        { PdfEnv.mk "doc.txt" "/tmp/out.xlsx" (fun _ => true) true [] none with
            pages := pages } =
        convert_pdf_to_excel
          (PdfEnv.mk "doc.txt" "/tmp/out.xlsx" (fun _ => true) true [] none))) :=
  ⟨Or.inl (by decide),
    convert_preconditions_fail_fast
      (PdfEnv.mk "doc.txt" "/tmp/out.xlsx" (fun _ => true) true [] none)
      (Or.inl (by decide))⟩

/-- C10.  An output path that ends in `.xlsx` but holds no `/` has the
empty `os.path.dirname`, and `os.access("", W_OK)` is `False` no matter
how permissive the filesystem is, so `convert_pdf_to_excel` raises
`PermissionError` at the writability precondition and never opens the
PDF. -/
theorem convert_bare_filename_permission_error (env : PdfEnv)
    (hpdf : py_endswith env.pdf_path ".pdf" = true)
    (hxl : py_endswith env.excel_path ".xlsx" = true)
    (hnoslash : env.excel_path.data.all (fun c => c ≠ '/') = true) :
    os_path_dirname env.excel_path = "" ∧
    (convert_pdf_to_excel env).result =
      Except.error (PyExn.permissionError
        ("Cannot write to directory: " ++ os_path_dirname env.excel_path)) ∧
    (convert_pdf_to_excel env).pdfOpened = false := by
  have hdir := os_path_dirname_no_slash _ hnoslash
  have hacc : os_access (os_path_dirname env.excel_path) env.writable = false := by
    rw [hdir]
    rfl
  refine ⟨hdir, ?_, ?_⟩ <;> simp [convert_pdf_to_excel, hpdf, hxl, hacc]

theorem convert_bare_filename_permission_error_witness :
    py_endswith "a.pdf" ".pdf" = true ∧
    py_endswith "out.xlsx" ".xlsx" = true ∧
    ("out.xlsx" : String).data.all (fun c => c ≠ '/') = true ∧
    (os_path_dirname "out.xlsx" = "" ∧
     (convert_pdf_to_excel
        (PdfEnv.mk "a.pdf" "out.xlsx" (fun _ => true) true [] none)).result =
       Except.error (PyExn.permissionError
         ("Cannot write to directory: " ++ os_path_dirname "out.xlsx")) ∧
     (convert_pdf_to_excel
        (PdfEnv.mk "a.pdf" "out.xlsx" (fun _ => true) true [] none)).pdfOpened = false) :=
  ⟨by decide, by decide, by decide,
    convert_bare_filename_permission_error
      (PdfEnv.mk "a.pdf" "out.xlsx" (fun _ => true) true [] none)
      (by decide) (by decide) (by decide)⟩

/-- C8.  When every extracted table is skipped and the grouping dict
stays empty, `convert_pdf_to_excel` completes normally — the caller sees
the "No Tables Found" message box rather than an exception — and no
spreadsheet file is written. -/
theorem convert_no_tables_outcome (env : PdfEnv)
    (hpdf : py_endswith env.pdf_path ".pdf" = true)
    (hxl : py_endswith env.excel_path ".xlsx" = true)
    (hacc : os_access (os_path_dirname env.excel_path) env.writable = true)
    (hok : env.pdf_ok = true)
    (hempty : process_tables env.pages.flatten = Except.ok []) :
    (convert_pdf_to_excel env).result = Except.ok Dialog.noTables ∧
    (convert_pdf_to_excel env).fileWritten = false := by
  constructor <;> simp [convert_pdf_to_excel, hpdf, hxl, hacc, hok, hempty]

theorem convert_no_tables_outcome_witness :
    py_endswith "a.pdf" ".pdf" = true ∧
    py_endswith "/tmp/out.xlsx" ".xlsx" = true ∧
    os_access (os_path_dirname "/tmp/out.xlsx") (fun _ => true) = true ∧
    process_tables
      ([[[[some "", some ""], [some "x", some "y"]]]] :
        List (List RawTable)).flatten = Except.ok [] ∧
    ((convert_pdf_to_excel
        (PdfEnv.mk "a.pdf" "/tmp/out.xlsx" (fun _ => true) true
          [[[[some "", some ""], [some "x", some "y"]]]] none)).result =
      Except.ok Dialog.noTables ∧
     (convert_pdf_to_excel
        (PdfEnv.mk "a.pdf" "/tmp/out.xlsx" (fun _ => true) true
          [[[[some "", some ""], [some "x", some "y"]]]] none)).fileWritten = false) :=
  ⟨by decide, by decide, by decide, by decide,
    convert_no_tables_outcome
      (PdfEnv.mk "a.pdf" "/tmp/out.xlsx" (fun _ => true) true
        [[[[some "", some ""], [some "x", some "y"]]]] none)
      (by decide) (by decide) (by decide) rfl (by decide)⟩

/-- C2 (counterexample).  With valid paths, a writable destination, a
readable PDF holding one good table, and an export step that fails
("disk full"), `convert_pdf_to_excel` completes normally with an error
dialog: its outcome is not an exception, so the failure is not
returned/raised to the caller as the claim states. -/
theorem convert_export_failure_not_raised :
    (convert_pdf_to_excel
      (PdfEnv.mk "a.pdf" "/tmp/out.xlsx" (fun _ => true) true
        [[[[some "ID", some "Value"], [some "1", some "2"]]]]
        (some "disk full"))).result =
      Except.ok (Dialog.errorBox "Failed to save Excel file: disk full") ∧
    (∀ e, (convert_pdf_to_excel
      (PdfEnv.mk "a.pdf" "/tmp/out.xlsx" (fun _ => true) true
        [[[[some "ID", some "Value"], [some "1", some "2"]]]]
        (some "disk full"))).result ≠ Except.error e) := by
  have hres : (convert_pdf_to_excel
      (PdfEnv.mk "a.pdf" "/tmp/out.xlsx" (fun _ => true) true
        [[[[some "ID", some "Value"], [some "1", some "2"]]]]
        (some "disk full"))).result =
      Except.ok (Dialog.errorBox "Failed to save Excel file: disk full") := by decide
  refine ⟨hres, ?_⟩
  intro e he
  rw [hres] at he
  cases he

/-- C2 (amended).  When spreadsheet serialization or I/O fails after data
has been prepared, `convert_pdf_to_excel` does not complete as if
successful — it reports the failure with its underlying cause through an
error dialog and writes no file — but the exception is caught inside the
function (pdftoexcel.py lines 197-199), so the caller receives a normal
return, not a raised/returned error. -/
theorem convert_export_failure_reported (env : PdfEnv) (e : String)
    (gs : List (List String × DF))
    (hpdf : py_endswith env.pdf_path ".pdf" = true)
    (hxl : py_endswith env.excel_path ".xlsx" = true)
    (hacc : os_access (os_path_dirname env.excel_path) env.writable = true)
    (hok : env.pdf_ok = true)
    (hgs : process_tables env.pages.flatten = Except.ok gs)
    (hne : gs.isEmpty = false)
    (herr : env.excel_error = some e) :
    (convert_pdf_to_excel env).result =
      Except.ok (Dialog.errorBox ("Failed to save Excel file: " ++ e)) ∧
    (convert_pdf_to_excel env).fileWritten = false ∧
    (∀ p, (convert_pdf_to_excel env).result ≠ Except.ok (Dialog.success p)) := by
  have hres : (convert_pdf_to_excel env).result =
      Except.ok (Dialog.errorBox ("Failed to save Excel file: " ++ e)) := by
    simp [convert_pdf_to_excel, hpdf, hxl, hacc, hok, hgs, hne, herr]
  refine ⟨hres, ?_, ?_⟩
  · simp [convert_pdf_to_excel, hpdf, hxl, hacc, hok, hgs, hne, herr]
  · intro p hp
    rw [hres] at hp
    simp at hp

theorem convert_export_failure_reported_witness :
    py_endswith "a.pdf" ".pdf" = true ∧
    py_endswith "/tmp/out.xlsx" ".xlsx" = true ∧
    os_access (os_path_dirname "/tmp/out.xlsx") (fun _ => true) = true ∧
    process_tables
      ([[[[some "ID", some "Value"], [some "1", some "2"]]]] :
        List (List RawTable)).flatten =
      Except.ok [(["id", "value"], DF.mk ["id", "value"] [[some "1", some "2"]])] ∧
    ([(["id", "value"], DF.mk ["id", "value"] [[some "1", some "2"]])] :
      List (List String × DF)).isEmpty = false ∧
    ((convert_pdf_to_excel
        (PdfEnv.mk "a.pdf" "/tmp/out.xlsx" (fun _ => true) true
          [[[[some "ID", some "Value"], [some "1", some "2"]]]]
          (some "disk error"))).result =
      Except.ok (Dialog.errorBox ("Failed to save Excel file: " ++ "disk error")) ∧
     (convert_pdf_to_excel
        (PdfEnv.mk "a.pdf" "/tmp/out.xlsx" (fun _ => true) true
          [[[[some "ID", some "Value"], [some "1", some "2"]]]]
          (some "disk error"))).fileWritten = false ∧
     (∀ p, (convert_pdf_to_excel
        (PdfEnv.mk "a.pdf" "/tmp/out.xlsx" (fun _ => true) true
          [[[[some "ID", some "Value"], [some "1", some "2"]]]]
          (some "disk error"))).result ≠ Except.ok (Dialog.success p))) :=
  ⟨by decide, by decide, by decide, by decide, by decide,
    convert_export_failure_reported
      (PdfEnv.mk "a.pdf" "/tmp/out.xlsx" (fun _ => true) true
        [[[[some "ID", some "Value"], [some "1", some "2"]]]]
        (some "disk error"))
      "disk error" [(["id", "value"], DF.mk ["id", "value"] [[some "1", some "2"]])]
      (by decide) (by decide) (by decide) rfl (by decide) (by decide) rfl⟩
